import Mathlib

/-!
Verification of the word-clock time-resolution engine and layout verifier
from `Demo Code/WordClock_By_ATC1441/wordclock_9_7.py`.

The Python module is embedded shallowly:
* `get_active_words` (time resolver) becomes a pure Lean function on `Nat`
  hours/minutes; the Python `None`-bearing key values become `Option String`
  and the trailing `None` filter becomes `List.filterMap id`.
* `verify_layout` (layout verifier) becomes a pure function returning the
  Python boolean result paired with the list of diagnostics it prints; the
  printed ERROR/WARNING messages are modelled by the inductive `Violation`.
* The static configuration tables (`GRID_LAYOUT`, `WORD_POSITIONS`,
  `HOUR_WORDS`, `INTERNAL_KEY_TO_WORD`) are transcribed literally; Python
  dicts become association lists (in source order) or `Nat → Option String`
  functions, and position tuples become integer lists so that the source's
  shape check (`len(pos_info) == 3`) remains meaningful.
-/

namespace WordClock

/-- Diagnostics emitted by `verify_layout`, one constructor per distinct
ERROR/WARNING print in the source. -/
inductive Violation : Type where
  | malformedGrid : Violation
  | unverifiableKey : String → Violation
  | outOfBounds : String → Violation
  | malformedPosition : String → Violation
  | wordMismatch : String → String → String → Violation
deriving DecidableEq, Repr

/-- Python `dict` lookup (`d.get(k)` / `k in d` + `d[k]`) on an association
list kept in source order. -/
def dict_get {α : Type} : List (String × α) → String → Option α
  | [], _ => none
  | (k, v) :: rest, key => if k == key then some v else dict_get rest key

/-- Python string slice `s[a : b + 1]` (used with `0 ≤ a ≤ b < s.length`). -/
def slice_inclusive (s : String) (a b : Nat) : String :=
  String.mk ((s.data.drop a).take (b + 1 - a))

/-- The coordinate bounds test of `verify_layout`
(`0 <= row < grid_rows and 0 <= start_col < grid_cols and
  0 <= end_col < grid_cols and start_col <= end_col`). -/
def inBounds (grid_rows grid_cols : Nat) (row start_col end_col : Int) : Bool :=
  decide (0 ≤ row ∧ row < (grid_rows : Int) ∧
    0 ≤ start_col ∧ start_col < (grid_cols : Int) ∧
    0 ≤ end_col ∧ end_col < (grid_cols : Int) ∧
    start_col ≤ end_col)

/-- The inner `for pos_info in pos_list` loop of `verify_layout`: walks the
spans of one key, accumulating the extracted word, and stops at the first
malformed or out-of-bounds entry.  Returns
(`valid_positions_found`, `extracted_word`, emitted violations). -/
def check_spans (grid : List String) (grid_rows grid_cols : Nat) (key : String) :
    List (List Int) → String → Bool × String × List Violation
  | [], extracted_word => (true, extracted_word, [])
  | pos_info :: rest, extracted_word =>
    match pos_info with
    | [row, start_col, end_col] =>
      if inBounds grid_rows grid_cols row start_col end_col then
        check_spans grid grid_rows grid_cols key rest
          (extracted_word ++
            slice_inclusive ((grid.getD row.toNat "")) start_col.toNat end_col.toNat)
      else (false, extracted_word, [Violation.outOfBounds key])
    | _ => (false, extracted_word, [Violation.malformedPosition key])

/-- The body of `verify_layout`'s per-key loop iteration: empty position
lists are skipped, keys missing from the verification dictionary yield a
non-fatal warning, otherwise the spans are checked and the extracted word is
compared with the expected one.  Returns (key verified OK, emitted
violations). -/
def check_key (grid : List String) (grid_rows grid_cols : Nat)
    (key_to_word_map : List (String × String)) (key : String)
    (positions : List (List Int)) : Bool × List Violation :=
  if positions.isEmpty then (true, [])
  else
    match dict_get key_to_word_map key with
    | none => (true, [Violation.unverifiableKey key])
    | some expected_word =>
      match check_spans grid grid_rows grid_cols key positions "" with
      | (valid_positions_found, extracted_word, viols) =>
        if valid_positions_found then
          if extracted_word ≠ expected_word then
            (false, viols ++ [Violation.wordMismatch key expected_word extracted_word])
          else (true, viols)
        else (false, viols)

/-- The `for key, positions in word_map.items()` loop of `verify_layout`,
threading `checked_keys`, `all_ok` and the emitted diagnostics. -/
def verify_loop (grid : List String) (grid_rows grid_cols : Nat)
    (key_to_word_map : List (String × String)) :
    List (String × List (List Int)) → List String → Bool → List Violation →
      Bool × List Violation
  | [], _, all_ok, violations => (all_ok, violations)
  | (key, positions) :: rest, checked_keys, all_ok, violations =>
    if checked_keys.contains key then
      verify_loop grid grid_rows grid_cols key_to_word_map rest checked_keys all_ok violations
    else
      verify_loop grid grid_rows grid_cols key_to_word_map rest (checked_keys ++ [key])
        (all_ok && (check_key grid grid_rows grid_cols key_to_word_map key positions).1)
        (violations ++ (check_key grid grid_rows grid_cols key_to_word_map key positions).2)

/-- `verify_layout(grid, word_map, key_to_word_map)` from the source.  The
first component is the Python return value; the second collects the
diagnostics the Python code prints along the way. -/
def verify_layout (grid : List String) (word_map : List (String × List (List Int)))
    (key_to_word_map : List (String × String)) : Bool × List Violation :=
  if grid.isEmpty then (false, [Violation.malformedGrid])
  else if (grid.headD "").length = 0 then (false, [Violation.malformedGrid])
  else if grid.any (fun row_str => row_str.length != (grid.headD "").length) then
    (false, [Violation.malformedGrid])
  else
    verify_loop grid grid.length (grid.headD "").length key_to_word_map word_map [] true []

/-- `GRID_LAYOUT` from the source (11 columns x 10 rows). -/
def GRID_LAYOUT : List String :=
  [ "ITLISMTENSA",
    "HALFQUARTER",
    "TWENTYFIVES",
    "MINUTESPAST",
    "TOXONELEVEN",
    "TWOSIXTHREE",
    "FOURFIVESEV",
    "EIGHTNINEAM",
    "PMTWELVEXTN",
    "OCLOCKYTIME" ]

/-- `WORD_POSITIONS` from the source: internal keys to `(row, start_col,
end_col)` spans, `end_col` inclusive, in source order. -/
def WORD_POSITIONS : List (String × List (List Int)) :=
  [ ("IT", [[0, 0, 1]]),
    ("IS", [[0, 3, 4]]),
    ("A", [[0, 10, 10]]),
    ("MINUTES", [[3, 0, 6]]),
    ("PAST", [[3, 7, 10]]),
    ("TO", [[4, 0, 1]]),
    ("OCLOCK", [[9, 0, 5]]),
    ("QUARTER", [[1, 4, 10]]),
    ("TWENTY", [[2, 0, 5]]),
    ("FIVE_M", [[2, 6, 9]]),
    ("HALF", [[1, 0, 3]]),
    ("TEN_M", [[0, 6, 8]]),
    ("ONE_H", [[4, 3, 5]]),
    ("TWO_H", [[5, 0, 2]]),
    ("THREE_H", [[5, 6, 10]]),
    ("FOUR_H", [[6, 0, 3]]),
    ("FIVE_H", [[6, 4, 7]]),
    ("SIX_H", [[5, 3, 5]]),
    ("SEVEN_H", [[6, 8, 10]]),
    ("EIGHT_H", [[7, 0, 4]]),
    ("NINE_H", [[7, 5, 8]]),
    ("TEN_H", [[0, 6, 8]]),
    ("ELEVEN_H", [[4, 5, 10]]),
    ("TWELVE_H", [[8, 2, 7]]) ]

/-- `HOUR_WORDS` from the source: hour number (1-12) to internal hour key;
missing hours give `None` just as `dict.get` does. -/
def HOUR_WORDS : Nat → Option String
  | 1 => some "ONE_H"
  | 2 => some "TWO_H"
  | 3 => some "THREE_H"
  | 4 => some "FOUR_H"
  | 5 => some "FIVE_H"
  | 6 => some "SIX_H"
  | 7 => some "SEVEN_H"
  | 8 => some "EIGHT_H"
  | 9 => some "NINE_H"
  | 10 => some "TEN_H"
  | 11 => some "ELEVEN_H"
  | 12 => some "TWELVE_H"
  | _ => none

/-- `INTERNAL_KEY_TO_WORD` from the source: internal keys to the literal
grid words, in source order. -/
def INTERNAL_KEY_TO_WORD : List (String × String) :=
  [ ("IT", "IT"), ("IS", "IS"), ("A", "A"), ("QUARTER", "QUARTER"),
    ("TWENTY", "TWENTY"), ("FIVE_M", "FIVE"), ("HALF", "HALF"),
    ("TEN_M", "TEN"), ("MINUTES", "MINUTES"), ("PAST", "PAST"),
    ("TO", "TO"), ("OCLOCK", "OCLOCK"), ("ONE_H", "ONE"), ("TWO_H", "TWO"),
    ("THREE_H", "THREE"), ("FOUR_H", "FOUR"), ("FIVE_H", "FIVE"),
    ("SIX_H", "SIX"), ("SEVEN_H", "SEV"), ("EIGHT_H", "EIGHT"),
    ("NINE_H", "NINE"), ("TEN_H", "TEN"), ("ELEVEN_H", "ELEVEN"),
    ("TWELVE_H", "TWELVE") ]

/-- The 12-hour normalisation of `get_active_words`
(`display_hour = hour % 12; if display_hour == 0: display_hour = 12`). -/
def display_hour (hour : Nat) : Nat :=
  if hour % 12 = 0 then 12 else hour % 12

/-- `next_hour = (display_hour % 12) + 1` from `get_active_words`. -/
def next_hour (hour : Nat) : Nat :=
  (display_hour hour % 12) + 1

/-- `get_active_words(hour, minute, hour_words_map)` from the source:
the list of internal keys to highlight for the given time. -/
def get_active_words (hour minute : Nat) (hour_words_map : Nat → Option String) :
    List String :=
  let active_keys : List String := ["IT", "IS"]
  let minute_precise := minute
  let current_hour_key := hour_words_map (display_hour hour)
  let next_hour_key := hour_words_map (next_hour hour)
  let show_minutes_word :=
    (5 ≤ minute_precise ∧ minute_precise < 15) ∨
    (20 ≤ minute_precise ∧ minute_precise < 30) ∨
    (35 ≤ minute_precise ∧ minute_precise < 45) ∨
    (50 ≤ minute_precise ∧ minute_precise < 60)
  let temp_keys : List (Option String) :=
    if minute_precise < 5 then [current_hour_key, some "OCLOCK"]
    else if minute_precise < 10 then [some "FIVE_M"]
    else if minute_precise < 15 then [some "TEN_M"]
    else if minute_precise < 20 then [some "A", some "QUARTER"]
    else if minute_precise < 25 then [some "TWENTY"]
    else if minute_precise < 30 then [some "TWENTY", some "FIVE_M"]
    else if minute_precise < 35 then [some "HALF"]
    else if minute_precise < 40 then [some "TWENTY", some "FIVE_M"]
    else if minute_precise < 45 then [some "TWENTY"]
    else if minute_precise < 50 then [some "A", some "QUARTER"]
    else if minute_precise < 55 then [some "TEN_M"]
    else [some "FIVE_M"]
  let temp_keys :=
    if show_minutes_word then temp_keys ++ [some "MINUTES"] else temp_keys
  let temp_keys :=
    if 0 < minute_precise ∧ minute_precise < 35 then
      if ¬(30 ≤ minute_precise ∧ minute_precise < 35) ∧ ¬(minute_precise < 5) then
        temp_keys ++ [some "PAST"]
      else temp_keys
    else if 35 ≤ minute_precise then temp_keys ++ [some "TO"]
    else temp_keys
  let temp_keys :=
    if 0 < minute_precise ∧ minute_precise < 35 then temp_keys ++ [current_hour_key]
    else if 35 ≤ minute_precise then temp_keys ++ [next_hour_key]
    else temp_keys
  active_keys ++ temp_keys.filterMap id

/-- Classifies which diagnostics make `verify_layout` fail: everything except
the `UnverifiableKey` warning. -/
def isFatal : Violation → Bool
  | Violation.unverifiableKey _ => false
  | _ => true

/-- Membership in the three-kind fatal taxonomy of the design document
(`MalformedGrid`, `OutOfBounds`, `WordMismatch`). -/
def spec_fatal_kind : Violation → Bool
  | Violation.malformedGrid => true
  | Violation.outOfBounds _ => true
  | Violation.wordMismatch _ _ _ => true
  | _ => false

/-- The word key a diagnostic is attributed to, if any. -/
def violationKeyOf : Violation → Option String
  | Violation.malformedGrid => none
  | Violation.unverifiableKey k => some k
  | Violation.outOfBounds k => some k
  | Violation.malformedPosition k => some k
  | Violation.wordMismatch k _ _ => some k

/-- The boolean outcome of `verify_loop` on its own, as a recursion over the
word map (used to state how the loop decomposes over list concatenation). -/
def loopOk (grid : List String) (grid_rows grid_cols : Nat)
    (key_to_word_map : List (String × String)) :
    List (String × List (List Int)) → List String → Bool
  | [], _ => true
  | (key, positions) :: rest, checked_keys =>
    if checked_keys.contains key then
      loopOk grid grid_rows grid_cols key_to_word_map rest checked_keys
    else
      (check_key grid grid_rows grid_cols key_to_word_map key positions).1 &&
        loopOk grid grid_rows grid_cols key_to_word_map rest (checked_keys ++ [key])

/-- The diagnostics emitted by `verify_loop` on its own. -/
def loopViols (grid : List String) (grid_rows grid_cols : Nat)
    (key_to_word_map : List (String × String)) :
    List (String × List (List Int)) → List String → List Violation
  | [], _ => []
  | (key, positions) :: rest, checked_keys =>
    if checked_keys.contains key then
      loopViols grid grid_rows grid_cols key_to_word_map rest checked_keys
    else
      (check_key grid grid_rows grid_cols key_to_word_map key positions).2 ++
        loopViols grid grid_rows grid_cols key_to_word_map rest (checked_keys ++ [key])

/-- How the `checked_keys` set evolves across a stretch of the word map. -/
def checkedAfter : List (String × List (List Int)) → List String → List String
  | [], checked_keys => checked_keys
  | (key, _) :: rest, checked_keys =>
    if checked_keys.contains key then checkedAfter rest checked_keys
    else checkedAfter rest (checked_keys ++ [key])

/-! ## Structure of the layout verifier -/

theorem check_spans_all_nonFatal (grid : List String) (gr gc : Nat) (key : String)
    (spans : List (List Int)) :
    ∀ acc : String,
      ((check_spans grid gr gc key spans acc).2.2).all (fun v => !(isFatal v)) =
        (check_spans grid gr gc key spans acc).1 := by
  induction spans with
  | nil => intro acc; simp [check_spans]
  | cons pos rest ih =>
    intro acc
    rcases pos with - | ⟨a, pos1⟩
    · simp [check_spans, isFatal]
    rcases pos1 with - | ⟨b, pos2⟩
    · simp [check_spans, isFatal]
    rcases pos2 with - | ⟨c, pos3⟩
    · simp [check_spans, isFatal]
    rcases pos3 with - | ⟨d, pos4⟩
    · by_cases hb : inBounds gr gc a b c = true
      · simp only [check_spans, hb, if_true]
        exact ih _
      · simp [check_spans, hb, isFatal]
    · simp [check_spans, isFatal]

theorem check_key_all_nonFatal (grid : List String) (gr gc : Nat)
    (ktw : List (String × String)) (key : String) (positions : List (List Int)) :
    ((check_key grid gr gc ktw key positions).2).all (fun v => !(isFatal v)) =
      (check_key grid gr gc ktw key positions).1 := by
  by_cases hemp : positions.isEmpty = true
  · simp [check_key, hemp]
  rcases hget : dict_get ktw key with - | w
  · simp [check_key, hemp, hget, isFatal]
  rcases hcs : check_spans grid gr gc key positions "" with ⟨valid, extracted, viols⟩
  have hall := check_spans_all_nonFatal grid gr gc key positions ""
  rw [hcs] at hall
  simp only at hall
  rcases valid with - | -
  · simp only [check_key, hemp, if_false, hget, hcs]
    simpa using hall
  · by_cases hne : extracted = w
    · simp [check_key, hemp, hget, hcs, hne, hall]
    · simp [check_key, hemp, hget, hcs, hne, isFatal, List.all_append, hall]

theorem verify_loop_eq (grid : List String) (gr gc : Nat)
    (ktw : List (String × String)) (entries : List (String × List (List Int))) :
    ∀ (checked : List String) (ok : Bool) (viols : List Violation),
      verify_loop grid gr gc ktw entries checked ok viols =
        (ok && loopOk grid gr gc ktw entries checked,
         viols ++ loopViols grid gr gc ktw entries checked) := by
  induction entries with
  | nil => intro checked ok viols; simp [verify_loop, loopOk, loopViols]
  | cons entry rest ih =>
    intro checked ok viols
    rcases entry with ⟨key, positions⟩
    by_cases hc : checked.contains key = true
    · simp only [verify_loop, loopOk, loopViols]
      rw [if_pos hc, if_pos hc, if_pos hc]
      exact ih checked ok viols
    · simp only [verify_loop, loopOk, loopViols]
      rw [if_neg hc, if_neg hc, if_neg hc, ih, Bool.and_assoc, List.append_assoc]

theorem loopViols_all (grid : List String) (gr gc : Nat)
    (ktw : List (String × String)) (entries : List (String × List (List Int))) :
    ∀ checked : List String,
      (loopViols grid gr gc ktw entries checked).all (fun v => !(isFatal v)) =
        loopOk grid gr gc ktw entries checked := by
  induction entries with
  | nil => intro checked; simp [loopOk, loopViols]
  | cons entry rest ih =>
    intro checked
    rcases entry with ⟨key, positions⟩
    by_cases hc : checked.contains key = true
    · simp only [loopOk, loopViols]
      rw [if_pos hc, if_pos hc]
      exact ih checked
    · simp only [loopOk, loopViols]
      rw [if_neg hc, if_neg hc, List.all_append, ih, check_key_all_nonFatal]

theorem loopOk_append (grid : List String) (gr gc : Nat)
    (ktw : List (String × String)) (xs : List (String × List (List Int))) :
    ∀ (ys : List (String × List (List Int))) (checked : List String),
      loopOk grid gr gc ktw (xs ++ ys) checked =
        (loopOk grid gr gc ktw xs checked &&
          loopOk grid gr gc ktw ys (checkedAfter xs checked)) := by
  induction xs with
  | nil => intro ys checked; simp [loopOk, checkedAfter]
  | cons entry rest ih =>
    intro ys checked
    rcases entry with ⟨key, positions⟩
    by_cases hc : checked.contains key = true
    · simp only [List.cons_append, loopOk, checkedAfter]
      rw [if_pos hc, if_pos hc, if_pos hc]
      exact ih ys checked
    · simp only [List.cons_append, loopOk, checkedAfter]
      rw [if_neg hc, if_neg hc, if_neg hc, List.append_eq, ih, Bool.and_assoc]

theorem loopViols_append (grid : List String) (gr gc : Nat)
    (ktw : List (String × String)) (xs : List (String × List (List Int))) :
    ∀ (ys : List (String × List (List Int))) (checked : List String),
      loopViols grid gr gc ktw (xs ++ ys) checked =
        loopViols grid gr gc ktw xs checked ++
          loopViols grid gr gc ktw ys (checkedAfter xs checked) := by
  induction xs with
  | nil => intro ys checked; simp [loopViols, checkedAfter]
  | cons entry rest ih =>
    intro ys checked
    rcases entry with ⟨key, positions⟩
    by_cases hc : checked.contains key = true
    · simp only [List.cons_append, loopViols, checkedAfter]
      rw [if_pos hc, if_pos hc, if_pos hc]
      exact ih ys checked
    · simp only [List.cons_append, loopViols, checkedAfter]
      rw [if_neg hc, if_neg hc, if_neg hc, List.append_eq, ih, List.append_assoc]

theorem checkedAfter_mem (xs : List (String × List (List Int))) :
    ∀ (checked : List String) (k : String), k ∈ checkedAfter xs checked →
      k ∈ checked ∨ k ∈ xs.map Prod.fst := by
  induction xs with
  | nil => intro checked k h; exact Or.inl (by simpa [checkedAfter] using h)
  | cons entry rest ih =>
    intro checked k h
    rcases entry with ⟨key, positions⟩
    by_cases hc : checked.contains key = true
    · simp only [checkedAfter] at h
      rw [if_pos hc] at h
      rcases ih checked k h with h1 | h1
      · exact Or.inl h1
      · exact Or.inr (by simp [h1])
    · simp only [checkedAfter] at h
      rw [if_neg hc] at h
      rcases ih (checked ++ [key]) k h with h1 | h1
      · rcases List.mem_append.mp h1 with h2 | h2
        · exact Or.inl h2
        · exact Or.inr (by simp [List.mem_singleton.mp h2])
      · exact Or.inr (List.mem_cons_of_mem _ (by simpa using h1))

theorem check_spans_viol_key (grid : List String) (gr gc : Nat) (key : String)
    (spans : List (List Int)) :
    ∀ (acc : String) (v : Violation),
      v ∈ (check_spans grid gr gc key spans acc).2.2 → violationKeyOf v = some key := by
  induction spans with
  | nil => intro acc v h; simp [check_spans] at h
  | cons pos rest ih =>
    intro acc v h
    rcases pos with - | ⟨a, pos1⟩
    · simp only [check_spans, List.mem_singleton] at h
      simp [h, violationKeyOf]
    rcases pos1 with - | ⟨b, pos2⟩
    · simp only [check_spans, List.mem_singleton] at h
      simp [h, violationKeyOf]
    rcases pos2 with - | ⟨c, pos3⟩
    · simp only [check_spans, List.mem_singleton] at h
      simp [h, violationKeyOf]
    rcases pos3 with - | ⟨d, pos4⟩
    · by_cases hb : inBounds gr gc a b c = true
      · simp only [check_spans] at h
        rw [if_pos hb] at h
        exact ih _ v h
      · simp only [check_spans] at h
        rw [if_neg hb] at h
        simp only [List.mem_singleton] at h
        simp [h, violationKeyOf]
    · simp only [check_spans, List.mem_singleton] at h
      simp [h, violationKeyOf]

theorem check_key_viol_key (grid : List String) (gr gc : Nat)
    (ktw : List (String × String)) (key : String) (positions : List (List Int)) :
    ∀ v ∈ (check_key grid gr gc ktw key positions).2, violationKeyOf v = some key := by
  intro v hv
  by_cases hemp : positions.isEmpty = true
  · simp [check_key, hemp] at hv
  rcases hget : dict_get ktw key with - | w
  · simp [check_key, hemp, hget] at hv
    simp [hv, violationKeyOf]
  rcases hcs : check_spans grid gr gc key positions "" with ⟨valid, extracted, viols⟩
  have hspan := check_spans_viol_key grid gr gc key positions ""
  rw [hcs] at hspan
  simp only at hspan
  rcases valid with - | -
  · simp [check_key, hemp, hget, hcs] at hv
    exact hspan v hv
  · by_cases hne : extracted = w
    · simp [check_key, hemp, hget, hcs, hne] at hv
      exact hspan v hv
    · simp [check_key, hemp, hget, hcs, hne] at hv
      rcases hv with h1 | h1
      · exact hspan v h1
      · simp [h1, violationKeyOf]

theorem mem_loopViols (grid : List String) (gr gc : Nat)
    (ktw : List (String × String)) (entries : List (String × List (List Int))) :
    ∀ (checked : List String) (v : Violation),
      v ∈ loopViols grid gr gc ktw entries checked →
        ∃ k, violationKeyOf v = some k ∧ k ∈ entries.map Prod.fst ∧ k ∉ checked := by
  induction entries with
  | nil => intro checked v h; simp [loopViols] at h
  | cons entry rest ih =>
    intro checked v h
    rcases entry with ⟨key, positions⟩
    by_cases hc : checked.contains key = true
    · simp only [loopViols] at h
      rw [if_pos hc] at h
      rcases ih checked v h with ⟨k, hk, hkm, hkc⟩
      exact ⟨k, hk, by simp [hkm], hkc⟩
    · simp only [loopViols] at h
      rw [if_neg hc] at h
      rcases List.mem_append.mp h with h1 | h1
      · refine ⟨key, check_key_viol_key grid gr gc ktw key positions v h1, by simp, ?_⟩
        simpa using hc
      · rcases ih (checked ++ [key]) v h1 with ⟨k, hk, hkm, hkc⟩
        exact ⟨k, hk, by simp [hkm], fun hmem => hkc (List.mem_append_left _ hmem)⟩

theorem check_spans_first_oob (grid : List String) (gr gc : Nat) (key : String)
    (r s e : Int) (spans : List (List Int)) :
    (∀ p ∈ spans, p.length = 3) → [r, s, e] ∈ spans →
      inBounds gr gc r s e = false →
      ∀ acc, (check_spans grid gr gc key spans acc).1 = false ∧
        (check_spans grid gr gc key spans acc).2.2 = [Violation.outOfBounds key] := by
  induction spans with
  | nil => intro _ hmem; exact absurd hmem (List.not_mem_nil _)
  | cons q rest ih =>
    intro h3 hmem hbad acc
    obtain ⟨a, b, c, rfl⟩ := List.length_eq_three.mp (h3 q (List.mem_cons_self _ _))
    by_cases hb : inBounds gr gc a b c = true
    · have hmem' : [r, s, e] ∈ rest := by
        rcases List.mem_cons.mp hmem with heq | h1
        · obtain ⟨rfl, rfl, rfl⟩ : r = a ∧ s = b ∧ e = c := by simpa using heq
          rw [hb] at hbad
          cases hbad
        · exact h1
      simp only [check_spans]
      rw [if_pos hb]
      exact ih (fun p hp => h3 p (List.mem_cons_of_mem _ hp)) hmem' hbad _
    · simp only [check_spans]
      rw [if_neg hb]
      exact ⟨rfl, rfl⟩

theorem check_spans_first_malformed (grid : List String) (gr gc : Nat) (key : String)
    (p0 : List Int) (spans : List (List Int)) :
    p0 ∈ spans → p0.length ≠ 3 →
      ∀ acc, (check_spans grid gr gc key spans acc).1 = false ∧
        ((check_spans grid gr gc key spans acc).2.2 = [Violation.malformedPosition key] ∨
         (check_spans grid gr gc key spans acc).2.2 = [Violation.outOfBounds key]) := by
  induction spans with
  | nil => intro hmem; exact absurd hmem (List.not_mem_nil _)
  | cons q rest ih =>
    intro hmem hlen acc
    rcases q with - | ⟨a, q1⟩
    · exact ⟨by simp [check_spans], Or.inl (by simp [check_spans])⟩
    rcases q1 with - | ⟨b, q2⟩
    · exact ⟨by simp [check_spans], Or.inl (by simp [check_spans])⟩
    rcases q2 with - | ⟨c, q3⟩
    · exact ⟨by simp [check_spans], Or.inl (by simp [check_spans])⟩
    rcases q3 with - | ⟨d, q4⟩
    · have hmem' : p0 ∈ rest := by
        rcases List.mem_cons.mp hmem with heq | h1
        · rw [heq] at hlen
          simp at hlen
        · exact h1
      by_cases hb : inBounds gr gc a b c = true
      · simp only [check_spans]
        rw [if_pos hb]
        exact ih hmem' hlen _
      · simp only [check_spans]
        rw [if_neg hb]
        exact ⟨rfl, Or.inr rfl⟩
    · exact ⟨by simp [check_spans], Or.inl (by simp [check_spans])⟩

theorem check_key_oob (grid : List String) (gr gc : Nat)
    (ktw : List (String × String)) (key w : String) (spans : List (List Int))
    (r s e : Int) (hget : dict_get ktw key = some w)
    (h3 : ∀ p ∈ spans, p.length = 3) (hmem : [r, s, e] ∈ spans)
    (hbad : inBounds gr gc r s e = false) :
    check_key grid gr gc ktw key spans = (false, [Violation.outOfBounds key]) := by
  have hemp : ¬(spans.isEmpty = true) := by
    cases spans with
    | nil => exact absurd hmem (List.not_mem_nil _)
    | cons q rest => simp
  obtain ⟨h1, h2⟩ := check_spans_first_oob grid gr gc key r s e spans h3 hmem hbad ""
  rcases hcs : check_spans grid gr gc key spans "" with ⟨valid, extracted, viols⟩
  rw [hcs] at h1 h2
  simp only at h1 h2
  subst h1
  subst h2
  simp [check_key, hemp, hget, hcs]

theorem check_key_malformed (grid : List String) (gr gc : Nat)
    (ktw : List (String × String)) (key w : String) (spans : List (List Int))
    (p0 : List Int) (hget : dict_get ktw key = some w)
    (hmem : p0 ∈ spans) (hlen : p0.length ≠ 3) :
    check_key grid gr gc ktw key spans = (false, [Violation.malformedPosition key]) ∨
    check_key grid gr gc ktw key spans = (false, [Violation.outOfBounds key]) := by
  have hemp : ¬(spans.isEmpty = true) := by
    cases spans with
    | nil => exact absurd hmem (List.not_mem_nil _)
    | cons q rest => simp
  obtain ⟨h1, h2⟩ := check_spans_first_malformed grid gr gc key p0 spans hmem hlen ""
  rcases hcs : check_spans grid gr gc key spans "" with ⟨valid, extracted, viols⟩
  rw [hcs] at h1 h2
  simp only at h1 h2
  subst h1
  rcases h2 with h2 | h2
  · subst h2
    exact Or.inl (by simp [check_key, hemp, hget, hcs])
  · subst h2
    exact Or.inr (by simp [check_key, hemp, hget, hcs])

/-! ## Layout verifier claims -/

/-- Claim C5, counterexample: on a grid `["AB"]` with a malformed
(two-element) position entry for a key that is present in the expected-word
map, `verify_layout` returns `False` although no `MalformedGrid`,
`OutOfBounds`, or `WordMismatch` violation is recorded — the recorded defect
is the malformed-position error, a kind outside the claim's taxonomy, so the
claimed equivalence fails. -/
theorem c5_counterexample_malformed_position :
    (verify_layout ["AB"] [("X", [[0, 0]])] [("X", "A")]).1 = false ∧
    ((verify_layout ["AB"] [("X", [[0, 0]])] [("X", "A")]).2.all
      (fun v => !(spec_fatal_kind v))) = true ∧
    (verify_layout ["AB"] [("X", [[0, 0]])] [("X", "A")]).2 =
      [Violation.malformedPosition "X"] := by
  decide

/-- Claim C5 as amended: `verify_layout` returns `True` iff no fatal
violation — `MalformedGrid`, `OutOfBounds`, `WordMismatch`, or the
malformed-position defect — is recorded; the non-fatal `UnverifiableKey`
warning never affects the result. -/
theorem c5_ok_iff_no_fatal_violation (grid : List String)
    (word_map : List (String × List (List Int)))
    (key_to_word_map : List (String × String)) :
    (verify_layout grid word_map key_to_word_map).1 =
      ((verify_layout grid word_map key_to_word_map).2.all (fun v => !(isFatal v))) := by
  unfold verify_layout
  split
  · simp [isFatal]
  · split
    · simp [isFatal]
    · split
      · simp [isFatal]
      · rw [verify_loop_eq]
        simp [loopViols_all]

/-- Claim C6: the canonical configuration verifies — `verify_layout` on
`GRID_LAYOUT`, `WORD_POSITIONS`, `INTERNAL_KEY_TO_WORD` returns `True` and
records no violation at all. -/
theorem c6_canonical_layout_verifies :
    verify_layout GRID_LAYOUT WORD_POSITIONS INTERNAL_KEY_TO_WORD = (true, []) := by
  decide

/-- Claim C7: if, inside a structurally valid grid configuration, the
position list of a key that is present in the expected-word map consists of
three-element spans and contains a span violating the bounds check, then
`verify_layout` returns `False`, records exactly one `OutOfBounds` violation
for that key (the walk over that key's spans stops at the first bad span,
with no extraction attempted for it), and the diagnostics of every other key
are exactly those of an unperturbed run: the output decomposes into the
diagnostics of the keys before, the single `OutOfBounds` defect, and the
diagnostics of the keys after. -/
theorem c7_out_of_bounds_span (grid : List String)
    (pre post : List (String × List (List Int))) (ktw : List (String × String))
    (key w : String) (spans : List (List Int)) (r s e : Int)
    (hg1 : grid ≠ [])
    (hg2 : (grid.headD "").length ≠ 0)
    (hg3 : ∀ row ∈ grid, row.length = (grid.headD "").length)
    (hfresh : key ∉ pre.map Prod.fst)
    (hget : dict_get ktw key = some w)
    (h3 : ∀ p ∈ spans, p.length = 3)
    (hmem : [r, s, e] ∈ spans)
    (hbad : inBounds grid.length (grid.headD "").length r s e = false) :
    (verify_layout grid (pre ++ (key, spans) :: post) ktw).1 = false ∧
    (verify_layout grid (pre ++ (key, spans) :: post) ktw).2.count
      (Violation.outOfBounds key) = 1 ∧
    (verify_layout grid (pre ++ (key, spans) :: post) ktw).2 =
      loopViols grid grid.length (grid.headD "").length ktw pre [] ++
        Violation.outOfBounds key ::
          loopViols grid grid.length (grid.headD "").length ktw post
            (checkedAfter pre [] ++ [key]) := by
  have h1' : ¬(grid.isEmpty = true) := by simpa [List.isEmpty_iff] using hg1
  have h3' : ¬(grid.any (fun row_str => row_str.length != (grid.headD "").length) = true) := by
    intro hcon
    rcases List.any_eq_true.mp hcon with ⟨row, hrow, hne⟩
    exact absurd (hg3 row hrow) (by simpa using hne)
  have hkey : ¬((checkedAfter pre []).contains key = true) := by
    intro hcon
    rcases checkedAfter_mem pre [] key (by simpa using hcon) with h1 | h1
    · exact absurd h1 (List.not_mem_nil _)
    · exact hfresh h1
  have hckey := check_key_oob grid grid.length (grid.headD "").length ktw key w spans
    r s e hget h3 hmem hbad
  have hmain : verify_layout grid (pre ++ (key, spans) :: post) ktw =
      (false,
       loopViols grid grid.length (grid.headD "").length ktw pre [] ++
         Violation.outOfBounds key ::
           loopViols grid grid.length (grid.headD "").length ktw post
             (checkedAfter pre [] ++ [key])) := by
    unfold verify_layout
    rw [if_neg h1', if_neg hg2, if_neg h3', verify_loop_eq, loopOk_append, loopViols_append]
    simp only [loopOk, loopViols]
    rw [if_neg hkey, if_neg hkey, hckey]
    simp
  have hpre : Violation.outOfBounds key ∉
      loopViols grid grid.length (grid.headD "").length ktw pre [] := by
    intro hmem2
    rcases mem_loopViols grid grid.length (grid.headD "").length ktw pre [] _ hmem2 with
      ⟨k, hk, hkmem, -⟩
    simp only [violationKeyOf, Option.some.injEq] at hk
    subst hk
    exact hfresh hkmem
  have hpost : Violation.outOfBounds key ∉
      loopViols grid grid.length (grid.headD "").length ktw post
        (checkedAfter pre [] ++ [key]) := by
    intro hmem2
    rcases mem_loopViols grid grid.length (grid.headD "").length ktw post _ _ hmem2 with
      ⟨k, hk, -, hnotin⟩
    simp only [violationKeyOf, Option.some.injEq] at hk
    subst hk
    exact hnotin (by simp)
  refine ⟨by rw [hmain], ?_, by rw [hmain]⟩
  rw [hmain]
  simp only [List.count_append, List.count_cons_self, Nat.zero_add,
    List.count_eq_zero.mpr hpre, List.count_eq_zero.mpr hpost]

/-- Claim C7, witness: in a 2x2 grid where the verifiable key `X` declares
the span `(2,0,0)` whose row is out of range, verification fails, exactly
one `OutOfBounds` defect is recorded for `X`, and the other key is still
checked as usual. -/
theorem c7_witness :
    dict_get [("GOOD", "AB"), ("X", "C")] "X" = some "C" ∧
    ([2, 0, 0] : List Int) ∈ ([[2, 0, 0]] : List (List Int)) ∧
    inBounds 2 2 2 0 0 = false ∧
    ((verify_layout ["AB", "CD"] [("GOOD", [[0, 0, 1]]), ("X", [[2, 0, 0]])]
        [("GOOD", "AB"), ("X", "C")]).1 = false ∧
     (verify_layout ["AB", "CD"] [("GOOD", [[0, 0, 1]]), ("X", [[2, 0, 0]])]
        [("GOOD", "AB"), ("X", "C")]).2.count (Violation.outOfBounds "X") = 1 ∧
     (verify_layout ["AB", "CD"] [("GOOD", [[0, 0, 1]]), ("X", [[2, 0, 0]])]
        [("GOOD", "AB"), ("X", "C")]).2 =
       loopViols ["AB", "CD"] 2 2 [("GOOD", "AB"), ("X", "C")] [("GOOD", [[0, 0, 1]])] [] ++
         Violation.outOfBounds "X" ::
           loopViols ["AB", "CD"] 2 2 [("GOOD", "AB"), ("X", "C")] [] ["GOOD", "X"]) :=
  ⟨rfl, by decide, by decide,
    c7_out_of_bounds_span ["AB", "CD"] [("GOOD", [[0, 0, 1]])] []
      [("GOOD", "AB"), ("X", "C")] "X" "C" [[2, 0, 0]] 2 0 0
      (by decide) (by decide) (by decide) (by decide) rfl
      (by decide) (by decide) (by decide)⟩

/-- Claim C10, counterexample: the sweeping conclusion "any such shape
defect in the position map fails verification" is false — when the key with
the malformed (one-element) position entry is absent from the expected-word
map, `verify_layout` skips it with a non-fatal `UnverifiableKey` warning
before ever looking at the entry's shape, and returns `True`. -/
theorem c10_counterexample_unverifiable_key_skips_shape_check :
    ([(0 : Int)] : List Int).length = 1 ∧
    (verify_layout ["A"] [("X", [[0]])] []).1 = true ∧
    (verify_layout ["A"] [("X", [[0]])] []).2 = [Violation.unverifiableKey "X"] := by
  decide

/-- Claim C10 as amended: inside a structurally valid grid configuration,
if the position list of a key that is present in the expected-word map
contains an entry that is not a three-element span, then `verify_layout`
returns `False` and the walk over that key's spans stops at its first
defective entry, recording a single defect for the key — the
malformed-position error (a kind beyond the design document's four-kind
taxonomy), or an `OutOfBounds` error when an out-of-bounds span of the same
key precedes the malformed entry — while every other key is still checked
exactly as in an unperturbed run. -/
theorem c10_malformed_position_entry (grid : List String)
    (pre post : List (String × List (List Int))) (ktw : List (String × String))
    (key w : String) (spans : List (List Int)) (p0 : List Int)
    (hg1 : grid ≠ [])
    (hg2 : (grid.headD "").length ≠ 0)
    (hg3 : ∀ row ∈ grid, row.length = (grid.headD "").length)
    (hfresh : key ∉ pre.map Prod.fst)
    (hget : dict_get ktw key = some w)
    (hmem : p0 ∈ spans) (hlen : p0.length ≠ 3) :
    (verify_layout grid (pre ++ (key, spans) :: post) ktw).1 = false ∧
    ((verify_layout grid (pre ++ (key, spans) :: post) ktw).2 =
      loopViols grid grid.length (grid.headD "").length ktw pre [] ++
        Violation.malformedPosition key ::
          loopViols grid grid.length (grid.headD "").length ktw post
            (checkedAfter pre [] ++ [key]) ∨
     (verify_layout grid (pre ++ (key, spans) :: post) ktw).2 =
      loopViols grid grid.length (grid.headD "").length ktw pre [] ++
        Violation.outOfBounds key ::
          loopViols grid grid.length (grid.headD "").length ktw post
            (checkedAfter pre [] ++ [key])) := by
  have h1' : ¬(grid.isEmpty = true) := by simpa [List.isEmpty_iff] using hg1
  have h3' : ¬(grid.any (fun row_str => row_str.length != (grid.headD "").length) = true) := by
    intro hcon
    rcases List.any_eq_true.mp hcon with ⟨row, hrow, hne⟩
    exact absurd (hg3 row hrow) (by simpa using hne)
  have hkey : ¬((checkedAfter pre []).contains key = true) := by
    intro hcon
    rcases checkedAfter_mem pre [] key (by simpa using hcon) with h1 | h1
    · exact absurd h1 (List.not_mem_nil _)
    · exact hfresh h1
  rcases check_key_malformed grid grid.length (grid.headD "").length ktw key w spans
    p0 hget hmem hlen with hckey | hckey
  · have hmain : verify_layout grid (pre ++ (key, spans) :: post) ktw =
        (false,
         loopViols grid grid.length (grid.headD "").length ktw pre [] ++
           Violation.malformedPosition key ::
             loopViols grid grid.length (grid.headD "").length ktw post
               (checkedAfter pre [] ++ [key])) := by
      unfold verify_layout
      rw [if_neg h1', if_neg hg2, if_neg h3', verify_loop_eq, loopOk_append, loopViols_append]
      simp only [loopOk, loopViols]
      rw [if_neg hkey, if_neg hkey, hckey]
      simp
    exact ⟨by rw [hmain], Or.inl (by rw [hmain])⟩
  · have hmain : verify_layout grid (pre ++ (key, spans) :: post) ktw =
        (false,
         loopViols grid grid.length (grid.headD "").length ktw pre [] ++
           Violation.outOfBounds key ::
             loopViols grid grid.length (grid.headD "").length ktw post
               (checkedAfter pre [] ++ [key])) := by
      unfold verify_layout
      rw [if_neg h1', if_neg hg2, if_neg h3', verify_loop_eq, loopOk_append, loopViols_append]
      simp only [loopOk, loopViols]
      rw [if_neg hkey, if_neg hkey, hckey]
      simp
    exact ⟨by rw [hmain], Or.inr (by rw [hmain])⟩

/-- Claim C10 amended, witness: in a 1x2 grid where the verifiable key `X`
declares the malformed two-element entry `[0, 0]`, verification fails with
the malformed-position defect recorded for `X`, the other key being checked
as usual. -/
theorem c10_witness :
    dict_get [("IT", "AB"), ("X", "A")] "X" = some "A" ∧
    ([0, 0] : List Int) ∈ ([[0, 0]] : List (List Int)) ∧
    ([0, 0] : List Int).length = 2 ∧
    ((verify_layout ["AB"] [("IT", [[0, 0, 1]]), ("X", [[0, 0]])]
        [("IT", "AB"), ("X", "A")]).1 = false ∧
     ((verify_layout ["AB"] [("IT", [[0, 0, 1]]), ("X", [[0, 0]])]
        [("IT", "AB"), ("X", "A")]).2 =
       loopViols ["AB"] 1 2 [("IT", "AB"), ("X", "A")] [("IT", [[0, 0, 1]])] [] ++
         Violation.malformedPosition "X" ::
           loopViols ["AB"] 1 2 [("IT", "AB"), ("X", "A")] [] ["IT", "X"] ∨
      (verify_layout ["AB"] [("IT", [[0, 0, 1]]), ("X", [[0, 0]])]
        [("IT", "AB"), ("X", "A")]).2 =
       loopViols ["AB"] 1 2 [("IT", "AB"), ("X", "A")] [("IT", [[0, 0, 1]])] [] ++
         Violation.outOfBounds "X" ::
           loopViols ["AB"] 1 2 [("IT", "AB"), ("X", "A")] [] ["IT", "X"])) :=
  ⟨rfl, by decide, by decide,
    c10_malformed_position_entry ["AB"] [("IT", [[0, 0, 1]])] []
      [("IT", "AB"), ("X", "A")] "X" "A" [[0, 0]] [0, 0]
      (by decide) (by decide) (by decide) (by decide) rfl
      (by decide) (by decide)⟩

/-! ## Time resolver claims -/

/-- Claim C1, evidence of the code bug: at an exact hour with minute 0 the
resolver returns exactly `[IT, IS, hour word, OCLOCK]`, but for the other
minutes of the 0-4 bucket the hour-word branch guarded by
`0 < minute_precise < 35` fires a second time and appends the current hour
key again, so 15:01 yields `[IT, IS, THREE_H, OCLOCK, THREE_H]` instead of
the specified four keys. -/
theorem c1_exact_hour_duplicate :
    get_active_words 15 0 HOUR_WORDS = ["IT", "IS", "THREE_H", "OCLOCK"] ∧
    get_active_words 15 1 HOUR_WORDS = ["IT", "IS", "THREE_H", "OCLOCK", "THREE_H"] := by
  decide

/-- Claim C2, evidence of the code bug: the output of the resolver is not
duplicate-free over the whole domain: at 15:01 the key `THREE_H` occurs
twice in the returned list. -/
theorem c2_duplicate_key_at_15_01 :
    (get_active_words 15 1 HOUR_WORDS).count "THREE_H" = 2 := by
  decide

/-- Claim C3, counterexample: minute 1 lies in the claimed domain
`(0,35)` excluding `[30,35)` (indeed `0 < 1 < 30`), yet the resolver output
for 15:01 does not contain `PAST` (minutes 1-4 fall into the o'clock bucket,
which the `PAST` guard excludes via `minute_precise not in range(0, 5)`). -/
theorem c3_counterexample_no_past_just_after_hour :
    (0 < 1 ∧ 1 < 30) ∧
    (get_active_words 15 1 HOUR_WORDS).contains "PAST" = false := by
  decide

/-- Claim C3 as amended: for every hour in `[0,24)` and every minute with
`0 < minute < 30`, the resolver output contains the current hour's key and
not the next hour's key; it contains `PAST` exactly when `5 ≤ minute`
(for minutes 1-4 the o'clock bucket applies and no `PAST` is emitted). -/
theorem c3_past_and_current_hour :
    ∀ hour : Nat, hour < 24 → ∀ minute : Nat, minute < 30 → 0 < minute →
      ((HOUR_WORDS (display_hour hour)).getD "" ∈ get_active_words hour minute HOUR_WORDS ∧
       (HOUR_WORDS (next_hour hour)).getD "" ∉ get_active_words hour minute HOUR_WORDS) ∧
      (5 ≤ minute → "PAST" ∈ get_active_words hour minute HOUR_WORDS) ∧
      (minute < 5 → "PAST" ∉ get_active_words hour minute HOUR_WORDS) := by
  have core : ∀ hour : Nat, hour < 24 → ∀ minute : Nat, minute < 30 →
      decide (0 < minute →
        ((HOUR_WORDS (display_hour hour)).getD "" ∈ get_active_words hour minute HOUR_WORDS ∧
         (HOUR_WORDS (next_hour hour)).getD "" ∉ get_active_words hour minute HOUR_WORDS) ∧
        (5 ≤ minute → "PAST" ∈ get_active_words hour minute HOUR_WORDS) ∧
        (minute < 5 → "PAST" ∉ get_active_words hour minute HOUR_WORDS)) = true := by
    decide
  exact fun hour hh minute hm hpos =>
    (of_decide_eq_true (core hour hh minute hm)) hpos

/-- Claim C3 amended, witness: at 15:15 the hypotheses hold and the resolver
output contains `PAST` and `THREE_H` but not `FOUR_H`. -/
theorem c3_witness :
    15 < 24 ∧ 15 < 30 ∧ 0 < 15 ∧
    (((HOUR_WORDS (display_hour 15)).getD "" ∈ get_active_words 15 15 HOUR_WORDS ∧
      (HOUR_WORDS (next_hour 15)).getD "" ∉ get_active_words 15 15 HOUR_WORDS) ∧
     (5 ≤ 15 → "PAST" ∈ get_active_words 15 15 HOUR_WORDS) ∧
     (15 < 5 → "PAST" ∉ get_active_words 15 15 HOUR_WORDS)) :=
  ⟨by decide, by decide, by decide,
    c3_past_and_current_hour 15 (by decide) 15 (by decide) (by decide)⟩

/-- Claim C4: for every hour in `[0,24)` and minute in `[0,60)`, once
`minute ≥ 35` the resolver output contains `TO` and the next hour's key and
not the current hour's key; before minute 35 it contains the current hour's
key and neither `TO` nor the next hour's key; and `PAST` only ever occurs
before minute 35 — so minute 35 is the sole boundary where the hour
reference and the direction switch. -/
theorem c4_to_and_next_hour_switch_at_35 :
    ∀ hour : Nat, hour < 24 → ∀ minute : Nat, minute < 60 →
      (35 ≤ minute →
        "TO" ∈ get_active_words hour minute HOUR_WORDS ∧
        (HOUR_WORDS (next_hour hour)).getD "" ∈ get_active_words hour minute HOUR_WORDS ∧
        (HOUR_WORDS (display_hour hour)).getD "" ∉ get_active_words hour minute HOUR_WORDS) ∧
      (minute < 35 →
        "TO" ∉ get_active_words hour minute HOUR_WORDS ∧
        (HOUR_WORDS (next_hour hour)).getD "" ∉ get_active_words hour minute HOUR_WORDS ∧
        (HOUR_WORDS (display_hour hour)).getD "" ∈ get_active_words hour minute HOUR_WORDS) ∧
      ("PAST" ∈ get_active_words hour minute HOUR_WORDS → minute < 35) := by
  have core : ∀ hour : Nat, hour < 24 → ∀ minute : Nat, minute < 60 →
      decide ((35 ≤ minute →
        "TO" ∈ get_active_words hour minute HOUR_WORDS ∧
        (HOUR_WORDS (next_hour hour)).getD "" ∈ get_active_words hour minute HOUR_WORDS ∧
        (HOUR_WORDS (display_hour hour)).getD "" ∉ get_active_words hour minute HOUR_WORDS) ∧
      (minute < 35 →
        "TO" ∉ get_active_words hour minute HOUR_WORDS ∧
        (HOUR_WORDS (next_hour hour)).getD "" ∉ get_active_words hour minute HOUR_WORDS ∧
        (HOUR_WORDS (display_hour hour)).getD "" ∈ get_active_words hour minute HOUR_WORDS) ∧
      ("PAST" ∈ get_active_words hour minute HOUR_WORDS → minute < 35)) = true := by
    decide
  exact fun hour hh minute hm => of_decide_eq_true (core hour hh minute hm)

/-- Claim C4, witness: at 15:35 the hypotheses hold; the output contains
`TO` and `FOUR_H` and not `THREE_H`. -/
theorem c4_witness :
    15 < 24 ∧ 35 < 60 ∧
    ((35 ≤ 35 →
      "TO" ∈ get_active_words 15 35 HOUR_WORDS ∧
      (HOUR_WORDS (next_hour 15)).getD "" ∈ get_active_words 15 35 HOUR_WORDS ∧
      (HOUR_WORDS (display_hour 15)).getD "" ∉ get_active_words 15 35 HOUR_WORDS) ∧
     (35 < 35 →
      "TO" ∉ get_active_words 15 35 HOUR_WORDS ∧
      (HOUR_WORDS (next_hour 15)).getD "" ∉ get_active_words 15 35 HOUR_WORDS ∧
      (HOUR_WORDS (display_hour 15)).getD "" ∈ get_active_words 15 35 HOUR_WORDS) ∧
     ("PAST" ∈ get_active_words 15 35 HOUR_WORDS → 35 < 35)) :=
  ⟨by decide, by decide,
    c4_to_and_next_hour_switch_at_35 15 (by decide) 35 (by decide)⟩

/-- Claim C8: for every hour in `[0,24)` and every minute in
`[0,5) ∪ [30,35)` the resolver output contains none of `MINUTES`, `PAST`,
`TO`. -/
theorem c8_clean_buckets_exclude_qualifiers :
    ∀ hour : Nat, hour < 24 → ∀ minute : Nat, minute < 60 →
      (minute < 5 ∨ (30 ≤ minute ∧ minute < 35)) →
      "MINUTES" ∉ get_active_words hour minute HOUR_WORDS ∧
      "PAST" ∉ get_active_words hour minute HOUR_WORDS ∧
      "TO" ∉ get_active_words hour minute HOUR_WORDS := by
  have core : ∀ hour : Nat, hour < 24 → ∀ minute : Nat, minute < 60 →
      decide ((minute < 5 ∨ (30 ≤ minute ∧ minute < 35)) →
        "MINUTES" ∉ get_active_words hour minute HOUR_WORDS ∧
        "PAST" ∉ get_active_words hour minute HOUR_WORDS ∧
        "TO" ∉ get_active_words hour minute HOUR_WORDS) = true := by
    decide
  exact fun hour hh minute hm hdom =>
    (of_decide_eq_true (core hour hh minute hm)) hdom

/-- Claim C8, witness: at 15:30 the hypotheses hold and none of `MINUTES`,
`PAST`, `TO` appears in the output. -/
theorem c8_witness :
    15 < 24 ∧ 30 < 60 ∧ (30 < 5 ∨ (30 ≤ 30 ∧ 30 < 35)) ∧
    ("MINUTES" ∉ get_active_words 15 30 HOUR_WORDS ∧
     "PAST" ∉ get_active_words 15 30 HOUR_WORDS ∧
     "TO" ∉ get_active_words 15 30 HOUR_WORDS) :=
  ⟨by decide, by decide, by decide,
    c8_clean_buckets_exclude_qualifiers 15 (by decide) 30 (by decide) (by decide)⟩

/-- Claim C9: for every hour in `[0,24)` and minute in `[0,60)`, the
resolver output contains `MINUTES` exactly when the minute lies in
`[5,15) ∪ [20,30) ∪ [35,45) ∪ [50,60)`. -/
theorem c9_minutes_iff_ranges :
    ∀ hour : Nat, hour < 24 → ∀ minute : Nat, minute < 60 →
      ("MINUTES" ∈ get_active_words hour minute HOUR_WORDS ↔
        ((5 ≤ minute ∧ minute < 15) ∨ (20 ≤ minute ∧ minute < 30) ∨
         (35 ≤ minute ∧ minute < 45) ∨ (50 ≤ minute ∧ minute < 60))) := by
  have core : ∀ hour : Nat, hour < 24 → ∀ minute : Nat, minute < 60 →
      decide ("MINUTES" ∈ get_active_words hour minute HOUR_WORDS) =
        decide ((5 ≤ minute ∧ minute < 15) ∨ (20 ≤ minute ∧ minute < 30) ∨
          (35 ≤ minute ∧ minute < 45) ∨ (50 ≤ minute ∧ minute < 60)) := by
    decide
  exact fun hour hh minute hm => decide_eq_decide.mp (core hour hh minute hm)

/-- Claim C9, witness: at 00:07 the hypotheses hold and `MINUTES` is in the
output, with 7 in `[5,15)`. -/
theorem c9_witness :
    0 < 24 ∧ 7 < 60 ∧
    ("MINUTES" ∈ get_active_words 0 7 HOUR_WORDS ↔
      ((5 ≤ 7 ∧ 7 < 15) ∨ (20 ≤ 7 ∧ 7 < 30) ∨
       (35 ≤ 7 ∧ 7 < 45) ∨ (50 ≤ 7 ∧ 7 < 60))) :=
  ⟨by decide, by decide, c9_minutes_iff_ranges 0 (by decide) 7 (by decide)⟩

end WordClock
